import Mathlib

/-!
# Verification of the peer-to-peer lending platform

Shallow embedding of `src/lending-platform.py`, a console application that
keeps three flat tables (users, loans, repayments) and offers registration,
loan listing, funding (`invest`), due-repayment processing, and an investor
dashboard.

Modelling conventions:
* The three CSV files are modelled as a `State` of three typed lists; a CSV
  append is a list append and a whole-file rewrite replaces the list.
* Numeric amounts are exact rationals.  Python's `round(x, 2)` is modelled as
  banker's rounding (round-half-to-even, the semantics of Python's built-in
  `round`) of `x * 100` to an integer, divided by 100; binary floating-point
  representation artifacts are outside the model.
* Dates are day numbers (`ℕ`).  The program stores dates as `YYYY-MM-DD`
  strings and compares them with string `<=`, which agrees with chronological
  order for that format, so `≤` on day numbers is the faithful translation.
* `duration` is an `ℤ`: the program reads it with Python `int(...)`, which
  accepts negative numerals, and the loan table can therefore hold a negative
  duration.
* Python raising an uncaught exception (`ValueError` from `float`/`int` on a
  non-numeric entry, `ZeroDivisionError` from a zero duration) is modelled as
  a distinguished `crash` outcome; a crash performs no write, matching the
  source where the raise happens before any file write on that path.
* Random ids from `generate_id` are passed in as parameters.
-/

namespace P2PLending

/-- ASCII lowercasing of one character — the effect of Python's `str.lower`
on the ASCII input this console app deals in. -/
def lowerChar (c : Char) : Char :=
  if 'A' ≤ c ∧ c ≤ 'Z' then Char.ofNat (c.toNat + 32) else c

/-- ASCII lowercasing of a string, modelling Python's `str.lower`. -/
def lowerString (s : String) : String := ⟨s.data.map lowerChar⟩

/-- Floor of a rational as an integer. -/
def ratFloor (q : ℚ) : ℤ := ⌊q⌋

/-- Banker's rounding of a rational to the nearest integer, ties to the even
integer — the rounding mode of Python's built-in `round`. -/
def pyRoundInt (q : ℚ) : ℤ :=
  let f := ratFloor q
  let frac := q - (f : ℚ)
  if frac < 1/2 then f
  else if 1/2 < frac then f + 1
  else if f % 2 = 0 then f else f + 1

/-- Python's `round(q, 2)` on exact rationals. -/
def round2 (q : ℚ) : ℚ := (pyRoundInt (q * 100) : ℚ) / 100

/-- Numeric value of a digit string (used by the numeral parsers). -/
def digitsVal (cs : List Char) : ℕ :=
  cs.foldl (fun a c => 10 * a + (c.toNat - 48)) 0

/-- Parse a nonempty all-digit string. -/
def parseDigits (cs : List Char) : Option ℕ :=
  if cs ≠ [] ∧ cs.all Char.isDigit then some (digitsVal cs) else none

/-- Model of Python's `int(...)` on console input, restricted to plain decimal
integer literals with an optional leading minus sign; any other entry raises
`ValueError`, modelled as `none`. -/
def parseInt (str : String) : Option ℤ :=
  match str.toList with
  | '-' :: rest => (parseDigits rest).map (fun n => -(n : ℤ))
  | cs => (parseDigits cs).map (fun n => (n : ℤ))

/-- Split a character list at the first dot, if any. -/
def splitDot : List Char → List Char × Option (List Char)
  | [] => ([], none)
  | c :: cs =>
    if c = '.' then ([], some cs)
    else
      let p := splitDot cs
      (c :: p.1, p.2)

/-- Model of Python's `float(...)` on console input, restricted to plain
decimal literals (optional minus sign, digits, optional dot and fractional
digits); any other entry raises `ValueError`, modelled as `none`. -/
def parseFloat (str : String) : Option ℚ :=
  let pos : List Char → Option ℚ := fun cs =>
    match splitDot cs with
    | (ip, none) => (parseDigits ip).map (fun n => (n : ℚ))
    | (ip, some fp) =>
      if (ip ≠ [] ∨ fp ≠ []) ∧ ip.all Char.isDigit ∧ fp.all Char.isDigit then
        some ((digitsVal ip : ℚ) + (digitsVal fp : ℚ) / (10 : ℚ) ^ fp.length)
      else none
  match str.toList with
  | '-' :: rest => (pos rest).map Neg.neg
  | cs => pos cs

/-- A row of `users.csv`. -/
structure User where
  user_id : String
  name : String
  role : String
deriving Repr, DecidableEq

/-- A row of `loans.csv`. -/
structure Loan where
  loan_id : String
  borrower_id : String
  amount : ℚ
  interest_rate : ℚ
  duration : ℤ
  status : String
deriving Repr, DecidableEq

/-- A row of `repayments.csv`. -/
structure Installment where
  loan_id : String
  investor_id : String
  monthly_payment : ℚ
  due_date : ℕ
  paid : Bool
deriving Repr, DecidableEq

/-- The persistent state: the contents of the three CSV tables. -/
structure State where
  users : List User
  loans : List Loan
  repayments : List Installment
deriving Repr, DecidableEq

/-- The initial state: three freshly initialised empty tables. -/
def initState : State := ⟨[], [], []⟩

/-- Outcome of `register_user`. -/
inductive RegisterOutcome where
  | success
  | invalidRole
deriving Repr, DecidableEq

/-- Embedding of `register_user` from the source: lowercases the role entry, rejects it
unless it is `borrower` or `investor`, otherwise appends the new user row.
`name` and `roleInput` are the console entries, `uid` the generated id. -/
def register_user (name roleInput uid : String) (s : State) :
    RegisterOutcome × State :=
  let role := lowerString roleInput
  if role = "borrower" ∨ role = "investor" then
    (.success, { s with users := s.users ++ [⟨uid, name, role⟩] })
  else
    (.invalidRole, s)

/-- Outcome of `list_loan`. -/
inductive ListLoanOutcome where
  | success
  | invalidBorrower
  | crash
deriving Repr, DecidableEq

/-- Embedding of `list_loan` from the source: validates the borrower id against the user
table, then parses amount, rate and duration with `float`/`int` — a
non-numeric entry raises an uncaught `ValueError` (`crash`) — and appends the
new loan with status `open`.  `lid` is the generated loan id. -/
def list_loan (borrower_id amountStr rateStr durationStr lid : String)
    (s : State) : ListLoanOutcome × State :=
  if s.users.any (fun u => u.user_id == borrower_id && u.role == "borrower") then
    match parseFloat amountStr, parseFloat rateStr, parseInt durationStr with
    | some amount, some rate, some duration =>
      (.success, { s with loans :=
        s.loans ++ [⟨lid, borrower_id, amount, rate, duration, "open"⟩] })
    | _, _, _ => (.crash, s)
  else
    (.invalidBorrower, s)

/-- Outcome of `invest`. -/
inductive InvestOutcome where
  | success
  | unknownInvestor
  | loanNotOpen
  | crash
deriving Repr, DecidableEq

/-- The repayment schedule generated inside `invest`'s loop: one installment
per loop iteration `i`, due `30 * (i + 1)` days after `today`, unpaid. -/
def schedule (loan_id investor_id : String) (mp : ℚ) (today : ℕ) (n : ℕ) :
    List Installment :=
  (List.range n).map (fun i => ⟨loan_id, investor_id, mp, today + 30 * (i + 1), false⟩)

/-- Embedding of `invest` from the source: validates the investor id, looks up the first
loan with the given id and status `open`, computes the flat monthly payment
`round(amount * (1 + rate/100) / duration, 2)` — a zero duration raises an
uncaught `ZeroDivisionError` (`crash`) —, appends one installment row per
month of `range(duration)` (empty for a negative duration), marks every loan
with that id as `funded` and rewrites the whole loan table. -/
def invest (investor_id loan_id : String) (today : ℕ) (s : State) :
    InvestOutcome × State :=
  if s.users.any (fun u => u.user_id == investor_id && u.role == "investor") then
    match s.loans.find? (fun l => l.loan_id == loan_id && l.status == "open") with
    | some loan =>
      if loan.duration = 0 then (.crash, s)
      else
        let mp := round2 (loan.amount * (1 + loan.interest_rate / 100) / (loan.duration : ℚ))
        let newReps := schedule loan_id investor_id mp today loan.duration.toNat
        let loans' := s.loans.map (fun l =>
          if l.loan_id == loan_id then { l with status := "funded" } else l)
        (.success, { s with loans := loans', repayments := s.repayments ++ newReps })
    | none => (.loanNotOpen, s)
  else
    (.unknownInvestor, s)

/-- The per-row test of `process_repayments`: due date reached and not yet
paid (the source compares the stored string `paid == 'False'`). -/
def dueUnpaid (today : ℕ) (r : Installment) : Bool :=
  decide (r.due_date ≤ today) && !r.paid

/-- Embedding of `process_repayments` from the source: one pass over the repayment table
marking every due unpaid installment as paid and recording whether any row
changed; the table file is rewritten only when a row changed.  The returned
`Bool` is that `updated` flag, i.e. whether the file was rewritten. -/
def process_repayments (today : ℕ) (s : State) : Bool × State :=
  let reps' := s.repayments.map (fun r =>
    if dueUnpaid today r then { r with paid := true } else r)
  let updated := s.repayments.any (dueUnpaid today)
  if updated then (true, { s with repayments := reps' }) else (false, s)

/-- Embedding of `investor_dashboard` from the source: total expected is the sum of
`monthly_payment` over the investor's installments, total paid the same sum
restricted to paid rows, outstanding their difference.  Sums are folds over
the filtered table, as Python's `sum` over a generator. -/
def investor_dashboard (investor_id : String) (s : State) : ℚ × ℚ × ℚ :=
  let total_expected :=
    (s.repayments.filter (fun r => r.investor_id == investor_id)).foldl
      (fun a r => a + r.monthly_payment) 0
  let total_paid :=
    (s.repayments.filter (fun r => r.investor_id == investor_id && r.paid)).foldl
      (fun a r => a + r.monthly_payment) 0
  (total_expected, total_paid, total_expected - total_paid)

/-- One dispatched operation of the application, with the console entries and
generated ids it consumes. -/
inductive Op where
  | registerOp (name roleInput uid : String)
  | listLoanOp (borrower_id amountStr rateStr durationStr lid : String)
  | viewLoansOp
  | investOp (investor_id loan_id : String) (today : ℕ)
  | processOp (today : ℕ)
  | dashboardOp (investor_id : String)
deriving Repr, DecidableEq

/-- The state transition of one operation (`view_loans` and the dashboard
only print). -/
def applyOp (op : Op) (s : State) : State :=
  match op with
  | .registerOp n r u => (register_user n r u s).2
  | .listLoanOp b a r d l => (list_loan b a r d l s).2
  | .viewLoansOp => s
  | .investOp i l t => (invest i l t s).2
  | .processOp t => (process_repayments t s).2
  | .dashboardOp _ => s

/-- Running a sequence of operations from a state. -/
def run (ops : List Op) (s : State) : State :=
  ops.foldl (fun t op => applyOp op t) s

/-- Every loan's status is `open` or `funded`. -/
def StatusOK (s : State) : Prop :=
  ∀ l ∈ s.loans, l.status = "open" ∨ l.status = "funded"

instance (s : State) : Decidable (StatusOK s) :=
  inferInstanceAs (Decidable (∀ l ∈ s.loans, _ ∨ _))

/-- Every stored user's role is `borrower` or `investor`. -/
def RolesOK (s : State) : Prop :=
  ∀ u ∈ s.users, u.role = "borrower" ∨ u.role = "investor"

instance (s : State) : Decidable (RolesOK s) :=
  inferInstanceAs (Decidable (∀ u ∈ s.users, _ ∨ _))

/-- The console entries one menu iteration may consume. -/
structure MenuInputs where
  name : String
  roleInput : String
  uid : String
  borrower_id : String
  amountStr : String
  rateStr : String
  durationStr : String
  lid : String
  investor_id : String
  loan_id : String
  today : ℕ
deriving Repr, DecidableEq

/-- How one menu iteration ends. -/
inductive MenuOutcome where
  | continueLoop
  | exitLoop
  | crash
deriving Repr, DecidableEq

/-- One iteration of the `menu` loop from the source: dispatch on the choice
string; business failures are printed and the loop continues; an uncaught
exception from `list_loan` or `invest` terminates the program (`crash`);
choice `7` exits; an unrecognised choice prints a message and continues. -/
def menuStep (choice : String) (inp : MenuInputs) (s : State) :
    MenuOutcome × State :=
  if choice = "1" then
    (.continueLoop, (register_user inp.name inp.roleInput inp.uid s).2)
  else if choice = "2" then
    match list_loan inp.borrower_id inp.amountStr inp.rateStr inp.durationStr inp.lid s with
    | (.crash, s') => (.crash, s')
    | (_, s') => (.continueLoop, s')
  else if choice = "3" then (.continueLoop, s)
  else if choice = "4" then
    match invest inp.investor_id inp.loan_id inp.today s with
    | (.crash, s') => (.crash, s')
    | (_, s') => (.continueLoop, s')
  else if choice = "5" then (.continueLoop, (process_repayments inp.today s).2)
  else if choice = "6" then (.continueLoop, s)
  else if choice = "7" then (.exitLoop, s)
  else (.continueLoop, s)

/-! ## Helper lemmas -/

theorem dueUnpaid_eq_true (today : ℕ) (r : Installment) :
    dueUnpaid today r = true ↔ r.due_date ≤ today ∧ r.paid = false := by
  simp [dueUnpaid]

theorem dueUnpaid_mark (today : ℕ) (r : Installment) :
    dueUnpaid today (if dueUnpaid today r then { r with paid := true } else r) = false := by
  by_cases h : dueUnpaid today r = true
  · rw [if_pos h]
    simp [dueUnpaid]
  · rw [if_neg h]
    simpa using h

theorem process_repayments_of_any_false (today : ℕ) (t : State)
    (ht : t.repayments.any (dueUnpaid today) = false) :
    process_repayments today t = (false, t) := by
  simp only [process_repayments]
  rw [ht]
  simp

theorem process_repayments_of_any_true (today : ℕ) (t : State)
    (ht : t.repayments.any (dueUnpaid today) = true) :
    process_repayments today t = (true, { t with repayments := t.repayments.map (fun r =>
      if dueUnpaid today r then { r with paid := true } else r) }) := by
  simp only [process_repayments]
  rw [ht]
  simp

/-! ## C3: `process_due_repayments` marks exactly the due unpaid installments -/

/-- C3.  For every repayments table and every processing date,
`process_repayments` marks paid exactly those installments whose due date has
been reached and which are unpaid, leaves every other installment (and the
other two tables) unchanged, and rewrites the repayments file — the returned
flag — if and only if at least one installment changed. -/
theorem process_due_repayments_spec (today : ℕ) (s : State) :
    (process_repayments today s).2.users = s.users ∧
    (process_repayments today s).2.loans = s.loans ∧
    (process_repayments today s).2.repayments = s.repayments.map (fun r =>
      if r.due_date ≤ today ∧ r.paid = false then { r with paid := true } else r) ∧
    ((process_repayments today s).1 = true ↔
      ∃ r ∈ s.repayments, r.due_date ≤ today ∧ r.paid = false) := by
  have hmap : s.repayments.map (fun r =>
      if dueUnpaid today r then { r with paid := true } else r) =
      s.repayments.map (fun r =>
        if r.due_date ≤ today ∧ r.paid = false then { r with paid := true } else r) := by
    refine List.map_congr_left (fun r _ => ?_)
    by_cases h : r.due_date ≤ today ∧ r.paid = false
    · rw [if_pos ((dueUnpaid_eq_true today r).2 h), if_pos h]
    · rw [if_neg (fun hc => h ((dueUnpaid_eq_true today r).1 hc)), if_neg h]
  have hany : (s.repayments.any (dueUnpaid today) = true) ↔
      ∃ r ∈ s.repayments, r.due_date ≤ today ∧ r.paid = false := by
    rw [List.any_eq_true]
    exact exists_congr (fun r => and_congr_right (fun _ => dueUnpaid_eq_true today r))
  cases hu : s.repayments.any (dueUnpaid today) with
  | true =>
    rw [process_repayments_of_any_true today s hu]
    exact ⟨rfl, rfl, hmap, iff_of_true rfl (hany.1 hu)⟩
  | false =>
    have hnone : ¬ ∃ r ∈ s.repayments, r.due_date ≤ today ∧ r.paid = false :=
      fun hc => by rw [hany.2 hc] at hu; cases hu
    have hid : s.repayments.map (fun r =>
        if r.due_date ≤ today ∧ r.paid = false then { r with paid := true } else r) =
        s.repayments := by
      have heq : s.repayments.map (fun r =>
          if r.due_date ≤ today ∧ r.paid = false then { r with paid := true } else r) =
          s.repayments.map id := by
        refine List.map_congr_left (fun r hr => ?_)
        have : ¬(r.due_date ≤ today ∧ r.paid = false) := fun hc => hnone ⟨r, hr, hc⟩
        simp [this]
      rw [heq, List.map_id]
    rw [process_repayments_of_any_false today s hu]
    exact ⟨rfl, rfl, hid.symm, iff_of_false (by simp) hnone⟩

/-! ## C4: `process_due_repayments` is idempotent -/

/-- C4.  Running `process_repayments` a second time on the same date marks no
further installment, never un-marks one, and leaves the table exactly as
after the first run; the second run reports that nothing was due. -/
theorem process_due_repayments_idempotent (today : ℕ) (s : State) :
    process_repayments today (process_repayments today s).2 =
      (false, (process_repayments today s).2) := by
  cases hu : s.repayments.any (dueUnpaid today) with
  | true =>
    have hany2 : ((process_repayments today s).2).repayments.any (dueUnpaid today) = false := by
      rw [process_repayments_of_any_true today s hu]
      rw [List.any_map, List.any_eq_false]
      intro r _
      simp only [Function.comp_apply]
      rw [dueUnpaid_mark]
      simp
    exact process_repayments_of_any_false today _ hany2
  | false =>
    have h2 : (process_repayments today s).2 = s := by
      rw [process_repayments_of_any_false today s hu]
    rw [h2]
    exact process_repayments_of_any_false today s hu

/-! ## C9: the investor summary identity -/

/-- C9.  For every investor id and repayments table, the dashboard's
outstanding figure equals expected total minus paid total, where the expected
total is the sum of `monthly_payment` over the investor's installments and
the paid total is the same sum restricted to paid installments. -/
theorem investor_summary_outstanding (investor_id : String) (s : State) :
    (investor_dashboard investor_id s).2.2 =
      (investor_dashboard investor_id s).1 - (investor_dashboard investor_id s).2.1 ∧
    (investor_dashboard investor_id s).1 =
      ((s.repayments.filter (fun r => r.investor_id == investor_id)).map
        (fun r => r.monthly_payment)).sum ∧
    (investor_dashboard investor_id s).2.1 =
      ((s.repayments.filter (fun r => r.investor_id == investor_id && r.paid)).map
        (fun r => r.monthly_payment)).sum := by
  have hfold : ∀ (l : List Installment),
      l.foldl (fun a r => a + r.monthly_payment) 0 =
        (l.map (fun r => r.monthly_payment)).sum := by
    intro l
    rw [List.sum_eq_foldl, List.foldl_map]
  exact ⟨rfl, hfold _, hfold _⟩

/-! ## C5: funding a non-open loan id fails without a write -/

/-- C5.  For a valid investor and any loan id that does not identify a loan
with status `open` (an already-funded id included), `invest` fails with the
loan-not-open error and returns the state unchanged: no installment row is
appended and the loan table is not rewritten. -/
theorem fund_loan_not_open (investor_id loan_id : String) (today : ℕ) (s : State)
    (hinv : s.users.any (fun u => u.user_id == investor_id && u.role == "investor") = true)
    (hloan : ∀ l ∈ s.loans, ¬(l.loan_id = loan_id ∧ l.status = "open")) :
    invest investor_id loan_id today s = (.loanNotOpen, s) := by
  have hfind : s.loans.find? (fun l => l.loan_id == loan_id && l.status == "open") = none := by
    rw [List.find?_eq_none]
    intro l hl
    simpa using hloan l hl
  simp [invest, hinv, hfind]

/-- Example state for C5's witness: one registered investor and one loan that
is already funded. -/
def sFunded : State :=
  ⟨[⟨"I1", "Bob", "investor"⟩], [⟨"L1", "B1", 1000, 10, 2, "funded"⟩], []⟩

theorem fund_loan_not_open_witness :
    invest "I1" "L1" 0 sFunded = (.loanNotOpen, sFunded) :=
  fund_loan_not_open "I1" "L1" 0 sFunded (by decide) (by decide)

/-! ## C8: invalid roles are rejected without a write -/

/-- C8, counterexample to the literal claim.  The raw role entry `"Borrower"`
is not in `{borrower, investor}`, yet `register_user` accepts it (the source
lowercases the entry before validating) and the user table changes. -/
theorem register_user_case_counterexample :
    ("Borrower" ∉ (["borrower", "investor"] : List String)) ∧
    (register_user "X" "Borrower" "U9" initState).2.users ≠ initState.users := by
  decide

/-- C8, amended.  For every role entry whose lowercased form is not
`borrower` or `investor`, `register_user` fails with the invalid-role outcome
and performs no write — the state is returned unchanged — and every write
`register_user` does perform stores a role in `{borrower, investor}`, so the
user-role invariant is preserved by registration with any entry. -/
theorem register_user_invalid_role (name role uid : String) (s : State)
    (h : lowerString role ∉ (["borrower", "investor"] : List String)) :
    register_user name role uid s = (.invalidRole, s) ∧
    ∀ (name' role' uid' : String) (t : State), RolesOK t →
      RolesOK (register_user name' role' uid' t).2 := by
  constructor
  · have h1 : ¬ (lowerString role = "borrower" ∨ lowerString role = "investor") := by
      simpa using h
    simp [register_user, h1]
  · intro name' role' uid' t ht
    by_cases h2 : lowerString role' = "borrower" ∨ lowerString role' = "investor"
    · simp only [register_user, if_pos h2]
      intro u hu
      rcases List.mem_append.1 hu with hu | hu
      · exact ht u hu
      · have : u = ⟨uid', name', lowerString role'⟩ := by simpa using hu
        subst this
        exact h2
    · simp only [register_user, if_neg h2]
      exact ht

theorem register_user_invalid_role_witness :
    register_user "X" "banker" "U9" initState = (.invalidRole, initState) :=
  (register_user_invalid_role "X" "banker" "U9" initState (by decide)).1

/-! ## The success path of `invest` -/

theorem invest_success_eq (investor_id loan_id : String) (today : ℕ) (s : State)
    (loan : Loan)
    (hinv : s.users.any (fun u => u.user_id == investor_id && u.role == "investor") = true)
    (hfind : s.loans.find? (fun l => l.loan_id == loan_id && l.status == "open") = some loan)
    (hdur : loan.duration ≠ 0) :
    invest investor_id loan_id today s =
      (.success, { s with
        loans := s.loans.map (fun l =>
          if l.loan_id == loan_id then { l with status := "funded" } else l),
        repayments := s.repayments ++ schedule loan_id investor_id
          (round2 (loan.amount * (1 + loan.interest_rate / 100) / (loan.duration : ℚ)))
          today loan.duration.toNat }) := by
  simp only [invest]
  rw [hinv, hfind]
  simp [hdur]

theorem invest_success_shape (investor_id loan_id : String) (today : ℕ) (s : State)
    (hsucc : (invest investor_id loan_id today s).1 = .success) :
    (invest investor_id loan_id today s).2.loans = s.loans.map (fun l =>
      if l.loan_id == loan_id then { l with status := "funded" } else l) ∧
    (invest investor_id loan_id today s).2.users = s.users := by
  by_cases hinv :
      s.users.any (fun u => u.user_id == investor_id && u.role == "investor") = true
  · cases hfind : s.loans.find? (fun l => l.loan_id == loan_id && l.status == "open") with
    | none => simp [invest, hinv, hfind] at hsucc
    | some loan =>
      by_cases hdur : loan.duration = 0
      · simp only [invest] at hsucc
        rw [hinv, hfind] at hsucc
        simp [hdur] at hsucc
      · rw [invest_success_eq investor_id loan_id today s loan hinv hfind hdur]
        exact ⟨rfl, rfl⟩
  · have : s.users.any (fun u => u.user_id == investor_id && u.role == "investor") = false := by
      simpa using hinv
    simp [invest, this] at hsucc

/-! ## C1: installment count and flat monthly payment of a funded loan -/

/-- States reached by running the application's own operations from the empty
tables: register a borrower, list a loan with the console entries
`100`, `10`, `-2` (Python's `int` accepts the negative duration), register an
investor. -/
def sNeg : State :=
  run [ .registerOp "Alice" "borrower" "B1",
        .listLoanOp "B1" "100" "10" "-2" "L1",
        .registerOp "Bob" "investor" "I1" ] initState

/-- C1, counterexample to the literal claim.  The loan table reached above
holds one loan with duration `-2`; `invest` funds it successfully — Python's
`range(-2)` is empty — yet creates `0` installment rows, and `0 ≠ -2`, so the
installment count of a successfully funded loan does not always equal the
loan's duration. -/
theorem funded_installment_count_counterexample :
    sNeg.loans.map Loan.duration = [-2] ∧
    sNeg.repayments = [] ∧
    (invest "I1" "L1" 0 sNeg).1 = .success ∧
    (invest "I1" "L1" 0 sNeg).2.repayments.length = 0 := by
  decide

/-- C1, amended.  For every loan with **positive** duration that `invest`
funds successfully, the number of installment rows created equals the loan's
duration and every created installment carries the monthly payment
`round(amount * (1 + interest_rate/100) / duration, 2)` computed from the
loan's stored fields.  (A zero duration makes `invest` crash on a division by
zero; a negative duration funds with no installments at all.) -/
theorem funded_loan_installments (investor_id loan_id : String) (today : ℕ)
    (s : State) (loan : Loan)
    (hinv : s.users.any (fun u => u.user_id == investor_id && u.role == "investor") = true)
    (hfind : s.loans.find? (fun l => l.loan_id == loan_id && l.status == "open") = some loan)
    (hdur : 0 < loan.duration) :
    (invest investor_id loan_id today s).1 = .success ∧
    (((invest investor_id loan_id today s).2.repayments.drop s.repayments.length).length : ℤ)
      = loan.duration ∧
    ∀ r ∈ (invest investor_id loan_id today s).2.repayments.drop s.repayments.length,
      r.monthly_payment =
        round2 (loan.amount * (1 + loan.interest_rate / 100) / (loan.duration : ℚ)) := by
  rw [invest_success_eq investor_id loan_id today s loan hinv hfind hdur.ne']
  refine ⟨rfl, ?_, ?_⟩
  · show (((s.repayments ++ schedule loan_id investor_id _ today loan.duration.toNat).drop
      s.repayments.length).length : ℤ) = loan.duration
    rw [List.drop_left]
    simp [schedule, Int.toNat_of_nonneg hdur.le]
  · show ∀ r ∈ (s.repayments ++ schedule loan_id investor_id _ today loan.duration.toNat).drop
      s.repayments.length, _
    rw [List.drop_left]
    intro r hr
    simp only [schedule, List.mem_map] at hr
    obtain ⟨i, _, rfl⟩ := hr
    rfl

/-- Example state for witnesses: one registered investor and one open loan
with amount 1000, rate 10 %, duration 2 months. -/
def sOpen : State :=
  ⟨[⟨"I1", "Bob", "investor"⟩], [⟨"L1", "B1", 1000, 10, 2, "open"⟩], []⟩

theorem funded_loan_installments_witness :
    (((invest "I1" "L1" 0 sOpen).2.repayments.drop sOpen.repayments.length).length : ℤ)
      = (2 : ℤ) :=
  (funded_loan_installments "I1" "L1" 0 sOpen ⟨"L1", "B1", 1000, 10, 2, "open"⟩
    (by decide) (by decide) (by decide)).2.1

/-! ## C2: full effect of a successful `invest` -/

/-- C2, counterexample to the literal claim.  On the reachable loan table
with the duration `-2` loan, `invest` succeeds and marks the loan `funded`,
but it appends `0` installments rather than `duration` of them. -/
theorem invest_effect_counterexample :
    sNeg.loans.map Loan.duration = [-2] ∧
    (invest "I1" "L1" 0 sNeg).1 = .success ∧
    (invest "I1" "L1" 0 sNeg).2.loans.map Loan.status = ["funded"] ∧
    (invest "I1" "L1" 0 sNeg).2.repayments = [] := by
  decide

/-- C2, amended.  For every open loan with **positive** duration and valid
investor, a successful `invest` appends exactly `duration` new installments
to the repayments table — the `i`-th due `30 * (i + 1)` days after the
current date and initially unpaid — marks the loan's status `funded`, and
rewrites the loan table to exactly that update, leaving the user table
alone. -/
theorem invest_success_effect (investor_id loan_id : String) (today : ℕ)
    (s : State) (loan : Loan)
    (hinv : s.users.any (fun u => u.user_id == investor_id && u.role == "investor") = true)
    (hfind : s.loans.find? (fun l => l.loan_id == loan_id && l.status == "open") = some loan)
    (hdur : 0 < loan.duration) :
    (invest investor_id loan_id today s).1 = .success ∧
    (invest investor_id loan_id today s).2.repayments.take s.repayments.length
      = s.repayments ∧
    (((invest investor_id loan_id today s).2.repayments.drop s.repayments.length).length : ℤ)
      = loan.duration ∧
    (invest investor_id loan_id today s).2.repayments.drop s.repayments.length =
      schedule loan_id investor_id
        (round2 (loan.amount * (1 + loan.interest_rate / 100) / (loan.duration : ℚ)))
        today loan.duration.toNat ∧
    (∀ (i : ℕ)
      (h : i < (schedule loan_id investor_id
        (round2 (loan.amount * (1 + loan.interest_rate / 100) / (loan.duration : ℚ)))
        today loan.duration.toNat).length),
      (schedule loan_id investor_id
        (round2 (loan.amount * (1 + loan.interest_rate / 100) / (loan.duration : ℚ)))
        today loan.duration.toNat)[i] =
        ⟨loan_id, investor_id,
          round2 (loan.amount * (1 + loan.interest_rate / 100) / (loan.duration : ℚ)),
          today + 30 * (i + 1), false⟩) ∧
    (invest investor_id loan_id today s).2.loans = s.loans.map (fun l =>
      if l.loan_id == loan_id then { l with status := "funded" } else l) ∧
    (invest investor_id loan_id today s).2.users = s.users := by
  rw [invest_success_eq investor_id loan_id today s loan hinv hfind hdur.ne']
  refine ⟨rfl, ?_, ?_, ?_, ?_, rfl, rfl⟩
  · show (s.repayments ++ schedule loan_id investor_id _ today loan.duration.toNat).take
      s.repayments.length = s.repayments
    exact List.take_left s.repayments _
  · show (((s.repayments ++ schedule loan_id investor_id _ today loan.duration.toNat).drop
      s.repayments.length).length : ℤ) = loan.duration
    rw [List.drop_left]
    simp [schedule, Int.toNat_of_nonneg hdur.le]
  · show (s.repayments ++ schedule loan_id investor_id _ today loan.duration.toNat).drop
      s.repayments.length = _
    exact List.drop_left s.repayments _
  · intro i h
    simp [schedule]

theorem invest_success_effect_witness :
    (invest "I1" "L1" 5 sOpen).2.repayments.take sOpen.repayments.length
      = sOpen.repayments :=
  (invest_success_effect "I1" "L1" 5 sOpen ⟨"L1", "B1", 1000, 10, 2, "open"⟩
    (by decide) (by decide) (by decide)).2.1

/-! ## C10: the frame effect of a successful `invest` on the loan table -/

/-- C10.  When `invest` succeeds and funds the loans with the given id, the
rewritten loan table has the same loans in the same order: every loan whose
id differs is field-for-field unchanged, and a loan with the funded id keeps
its id, borrower, amount, interest rate and duration — only its status
becomes `funded`. -/
theorem invest_frame_effect (investor_id loan_id : String) (today : ℕ) (s : State)
    (hsucc : (invest investor_id loan_id today s).1 = .success) :
    (invest investor_id loan_id today s).2.loans.length = s.loans.length ∧
    ∀ (i : ℕ) (h : i < s.loans.length)
      (h' : i < (invest investor_id loan_id today s).2.loans.length),
      ((invest investor_id loan_id today s).2.loans[i]).loan_id = (s.loans[i]).loan_id ∧
      ((invest investor_id loan_id today s).2.loans[i]).borrower_id = (s.loans[i]).borrower_id ∧
      ((invest investor_id loan_id today s).2.loans[i]).amount = (s.loans[i]).amount ∧
      ((invest investor_id loan_id today s).2.loans[i]).interest_rate = (s.loans[i]).interest_rate ∧
      ((invest investor_id loan_id today s).2.loans[i]).duration = (s.loans[i]).duration ∧
      ((s.loans[i]).loan_id ≠ loan_id → (invest investor_id loan_id today s).2.loans[i] = s.loans[i]) ∧
      ((s.loans[i]).loan_id = loan_id →
        ((invest investor_id loan_id today s).2.loans[i]).status = "funded") := by
  obtain ⟨hl, _⟩ := invest_success_shape investor_id loan_id today s hsucc
  constructor
  · rw [hl, List.length_map]
  · intro i h h'
    have hg : (invest investor_id loan_id today s).2.loans[i] =
        (if (s.loans[i]).loan_id == loan_id
         then { s.loans[i] with status := "funded" } else s.loans[i]) := by
      rw [List.getElem_of_eq hl, List.getElem_map]
    rw [hg]
    by_cases hid : (s.loans[i]).loan_id = loan_id
    · rw [if_pos (show ((s.loans[i]).loan_id == loan_id) = true by simp [hid])]
      exact ⟨rfl, rfl, rfl, rfl, rfl, fun hc => absurd hid hc, fun _ => rfl⟩
    · rw [if_neg (show ¬ ((s.loans[i]).loan_id == loan_id) = true by simp [hid])]
      exact ⟨rfl, rfl, rfl, rfl, rfl, fun _ => rfl, fun hc => absurd hc hid⟩

theorem invest_frame_effect_witness :
    (invest "I1" "L1" 0 sOpen).2.loans.length = sOpen.loans.length :=
  (invest_frame_effect "I1" "L1" 0 sOpen (by decide)).1

/-! ## C7: the loan status state machine -/

/-- Every operation either leaves the loan table alone, appends one loan
created with status `open`, or maps the funding update over it. -/
theorem applyOp_loans_shape (op : Op) (t : State) :
    (applyOp op t).loans = t.loans ∨
    (∃ nl : Loan, nl.status = "open" ∧ (applyOp op t).loans = t.loans ++ [nl]) ∨
    (∃ lid : String, (applyOp op t).loans = t.loans.map (fun l =>
      if l.loan_id == lid then { l with status := "funded" } else l)) := by
  cases op with
  | registerOp n r u =>
    by_cases hr : lowerString r = "borrower" ∨ lowerString r = "investor" <;>
      simp [applyOp, register_user, hr]
  | listLoanOp b a r d lid =>
    by_cases hb : t.users.any (fun u => u.user_id == b && u.role == "borrower") = true
    · cases hA : parseFloat a with
      | none => left; simp [applyOp, list_loan, hb, hA]
      | some amount =>
        cases hR : parseFloat r with
        | none => left; simp [applyOp, list_loan, hb, hA, hR]
        | some rate =>
          cases hD : parseInt d with
          | none => left; simp [applyOp, list_loan, hb, hA, hR, hD]
          | some dur =>
            right; left
            exact ⟨⟨lid, b, amount, rate, dur, "open"⟩, rfl,
              by simp [applyOp, list_loan, hb, hA, hR, hD]⟩
    · have hb' : t.users.any (fun u => u.user_id == b && u.role == "borrower") = false := by
        simpa using hb
      left
      simp [applyOp, list_loan, hb']
  | viewLoansOp => left; rfl
  | investOp iid lid tm =>
    by_cases hin : t.users.any (fun u => u.user_id == iid && u.role == "investor") = true
    · cases hfind : t.loans.find? (fun l => l.loan_id == lid && l.status == "open") with
      | none => left; simp [applyOp, invest, hin, hfind]
      | some loan =>
        by_cases hd : loan.duration = 0
        · left
          simp only [applyOp, invest]
          rw [hin, hfind]
          simp [hd]
        · right; right
          refine ⟨lid, ?_⟩
          rw [show applyOp (.investOp iid lid tm) t = (invest iid lid tm t).2 from rfl,
            invest_success_eq iid lid tm t loan hin hfind hd]
    · have hin' : t.users.any (fun u => u.user_id == iid && u.role == "investor") = false := by
        simpa using hin
      left
      simp [applyOp, invest, hin']
  | processOp tm =>
    left
    cases hu : t.repayments.any (dueUnpaid tm) with
    | true => rw [show applyOp (.processOp tm) t = (process_repayments tm t).2 from rfl,
        process_repayments_of_any_true tm t hu]
    | false => rw [show applyOp (.processOp tm) t = (process_repayments tm t).2 from rfl,
        process_repayments_of_any_false tm t hu]
  | dashboardOp iid => left; rfl

theorem statusOK_applyOp (op : Op) (t : State) (ht : StatusOK t) :
    StatusOK (applyOp op t) := by
  rcases applyOp_loans_shape op t with h | ⟨nl, hnl, h⟩ | ⟨lid, h⟩
  · intro l hl
    rw [h] at hl
    exact ht l hl
  · intro l hl
    rw [h] at hl
    rcases List.mem_append.1 hl with h1 | h1
    · exact ht l h1
    · have : l = nl := by simpa using h1
      rw [this, hnl]
      left
      rfl
  · intro l hl
    rw [h] at hl
    rcases List.mem_map.1 hl with ⟨l0, hl0, rfl⟩
    by_cases hid : (l0.loan_id == lid) = true
    · rw [if_pos hid]
      right
      rfl
    · rw [if_neg (by simpa using hid)]
      exact ht l0 hl0

theorem statusOK_run (ops : List Op) (s : State) (hs : StatusOK s) :
    StatusOK (run ops s) := by
  induction ops generalizing s with
  | nil => exact hs
  | cons op rest ih => exact ih (applyOp op s) (statusOK_applyOp op s hs)

/-- C7.  From any state whose loans all have status `open` or `funded`, every
sequence of operations preserves that invariant; moreover every single
operation, on any such state, keeps the existing loans in place, changes an
existing loan's status only from `open` to `funded` (never the reverse, never
to anything else), and any loan an operation appends is created with status
`open`. -/
theorem loan_status_machine (ops : List Op) (s : State) (hs : StatusOK s) :
    StatusOK (run ops s) ∧
    ∀ (op : Op) (t : State), StatusOK t →
      t.loans.length ≤ (applyOp op t).loans.length ∧
      (∀ (i : ℕ) (h : i < t.loans.length) (h' : i < (applyOp op t).loans.length),
        ((applyOp op t).loans[i]).status = (t.loans[i]).status ∨
        ((t.loans[i]).status = "open" ∧ ((applyOp op t).loans[i]).status = "funded")) ∧
      (∀ (i : ℕ) (h' : i < (applyOp op t).loans.length), t.loans.length ≤ i →
        ((applyOp op t).loans[i]).status = "open") := by
  refine ⟨statusOK_run ops s hs, ?_⟩
  intro op t ht
  rcases applyOp_loans_shape op t with h | ⟨nl, hnl, h⟩ | ⟨lid, h⟩
  · refine ⟨by rw [h], ?_, ?_⟩
    · intro i hi hi'
      left
      congr 1
      exact List.getElem_of_eq h hi'
    · intro i hi' hge
      rw [h] at hi'
      omega
  · refine ⟨by rw [h]; simp, ?_, ?_⟩
    · intro i hi hi'
      left
      congr 1
      rw [List.getElem_of_eq h]
      exact List.getElem_append_left hi
    · intro i hi' hge
      have hi2 : i < (t.loans ++ [nl]).length := by rw [← h]; exact hi'
      have hieq : i = t.loans.length := by
        simp only [List.length_append, List.length_singleton] at hi2
        omega
      have hnleq : (applyOp op t).loans[i] = nl := by
        rw [List.getElem_of_eq h]
        subst hieq
        exact List.getElem_concat_length t.loans nl _ rfl ..
      rw [hnleq, hnl]
  · have hlen : (applyOp op t).loans.length = t.loans.length := by
      rw [h, List.length_map]
    refine ⟨hlen.ge, ?_, ?_⟩
    · intro i hi hi'
      have hg : (applyOp op t).loans[i] =
          (if (t.loans[i]).loan_id == lid
           then { t.loans[i] with status := "funded" } else t.loans[i]) := by
        rw [List.getElem_of_eq h, List.getElem_map]
      by_cases hid : ((t.loans[i]).loan_id == lid) = true
      · rw [hg, if_pos hid]
        rcases ht (t.loans[i]) (List.getElem_mem hi) with hopen | hfunded
        · right
          exact ⟨hopen, rfl⟩
        · left
          rw [← hfunded]
      · rw [hg, if_neg (by simpa using hid)]
        left
        rfl
    · intro i hi' hge
      rw [hlen] at hi'
      omega

/-- The spec's happy-path scenario as an operation sequence: register the
borrower, list a 1000-at-10 %-for-2-months loan, register the investor, fund
it, process repayments 61 days later. -/
def opsW : List Op :=
  [ .registerOp "Alice" "borrower" "B1",
    .listLoanOp "B1" "1000" "10" "2" "L1",
    .registerOp "Bob" "investor" "I1",
    .investOp "I1" "L1" 0,
    .processOp 61 ]

theorem loan_status_machine_witness : StatusOK (run opsW initState) :=
  (loan_status_machine opsW initState (by decide)).1

/-! ## C6: error handling at the menu loop -/

theorem list_loan_crash_iff (b a r d lid : String) (s : State) :
    (list_loan b a r d lid s).1 = .crash ↔
      (s.users.any (fun u => u.user_id == b && u.role == "borrower") = true ∧
       (parseFloat a = none ∨ parseFloat r = none ∨ parseInt d = none)) := by
  by_cases hb : s.users.any (fun u => u.user_id == b && u.role == "borrower") = true
  · cases hA : parseFloat a with
    | none => simp [list_loan, hb, hA]
    | some amount =>
      cases hR : parseFloat r with
      | none => simp [list_loan, hb, hA, hR]
      | some rate =>
        cases hD : parseInt d with
        | none => simp [list_loan, hb, hA, hR, hD]
        | some dur => simp [list_loan, hb, hA, hR, hD]
  · have hb' : s.users.any (fun u => u.user_id == b && u.role == "borrower") = false := by
      simpa using hb
    simp [list_loan, hb']

theorem invest_crash_iff (iid lid : String) (tm : ℕ) (s : State) :
    (invest iid lid tm s).1 = .crash ↔
      (s.users.any (fun u => u.user_id == iid && u.role == "investor") = true ∧
       ∃ loan, s.loans.find? (fun l => l.loan_id == lid && l.status == "open") = some loan ∧
         loan.duration = 0) := by
  by_cases hin : s.users.any (fun u => u.user_id == iid && u.role == "investor") = true
  · cases hfind : s.loans.find? (fun l => l.loan_id == lid && l.status == "open") with
    | none => simp [invest, hin, hfind]
    | some loan =>
      by_cases hd : loan.duration = 0
      · simp only [invest]
        rw [hin, hfind]
        simp [hd, hin]
      · rw [invest_success_eq iid lid tm s loan hin hfind hd]
        simp [hfind, hd]
  · have hin' : s.users.any (fun u => u.user_id == iid && u.role == "investor") = false := by
      simpa using hin
    simp [invest, hin']

/-- Console inputs for the C6 counterexample: a valid borrower id with the
non-numeric amount entry `abc`. -/
def inpCE : MenuInputs := ⟨"", "", "", "B1", "abc", "5", "2", "L9", "", "", 0⟩

/-- The state for the C6 counterexample: one registered borrower. -/
def sCE : State := (register_user "Alice" "borrower" "B1" initState).2

/-- C6, counterexample to the literal claim.  Choosing menu option `2` with a
valid borrower id and the non-numeric amount entry `abc` makes the iteration
end in an uncaught-exception crash: the loop neither continues nor was exit
chosen, so not every business failure is rendered as a message with the loop
continuing. -/
theorem menu_crash_counterexample :
    (menuStep "2" inpCE sCE).1 = MenuOutcome.crash ∧
    (menuStep "2" inpCE sCE).1 ≠ MenuOutcome.continueLoop ∧
    (("2" : String) = "7" → False) := by
  decide

/-- C6, amended.  A menu iteration exits the loop exactly when `7` is chosen,
and the checked business failures (invalid role, unknown borrower or investor
id, unknown or non-open loan id, unrecognised menu choice) all print a
message and let the loop continue; but the iteration instead terminates the
program with an uncaught exception exactly when loan listing reaches a
non-numeric amount, rate or duration entry (a `ValueError` from
`float`/`int`), or investing reaches an open loan of duration zero (a
`ZeroDivisionError`). -/
theorem menu_loop_errors (choice : String) (inp : MenuInputs) (s : State) :
    ((menuStep choice inp s).1 = .exitLoop ↔ choice = "7") ∧
    ((menuStep choice inp s).1 = .crash ↔
      ((choice = "2" ∧
        s.users.any (fun u => u.user_id == inp.borrower_id && u.role == "borrower") = true ∧
        (parseFloat inp.amountStr = none ∨ parseFloat inp.rateStr = none ∨
         parseInt inp.durationStr = none)) ∨
       (choice = "4" ∧
        s.users.any (fun u => u.user_id == inp.investor_id && u.role == "investor") = true ∧
        ∃ loan,
          s.loans.find? (fun l => l.loan_id == inp.loan_id && l.status == "open") = some loan ∧
          loan.duration = 0))) := by
  by_cases h1 : choice = "1"
  · subst h1
    simp [menuStep]
  · by_cases h2 : choice = "2"
    · subst h2
      have hcr := list_loan_crash_iff inp.borrower_id inp.amountStr inp.rateStr
        inp.durationStr inp.lid s
      rcases hll : list_loan inp.borrower_id inp.amountStr inp.rateStr inp.durationStr
        inp.lid s with ⟨o, s'⟩
      rw [hll] at hcr
      cases o with
      | success =>
        have hm : menuStep "2" inp s = (MenuOutcome.continueLoop, s') := by
          simp [menuStep, hll]
        rw [hm]
        refine ⟨iff_of_false (by simp) (by simp), iff_of_false (by simp) ?_⟩
        rintro (⟨-, hc⟩ | ⟨h24, -⟩)
        · exact absurd (hcr.2 hc) (by simp)
        · exact absurd h24 (by simp)
      | invalidBorrower =>
        have hm : menuStep "2" inp s = (MenuOutcome.continueLoop, s') := by
          simp [menuStep, hll]
        rw [hm]
        refine ⟨iff_of_false (by simp) (by simp), iff_of_false (by simp) ?_⟩
        rintro (⟨-, hc⟩ | ⟨h24, -⟩)
        · exact absurd (hcr.2 hc) (by simp)
        · exact absurd h24 (by simp)
      | crash =>
        have hm : menuStep "2" inp s = (MenuOutcome.crash, s') := by
          simp [menuStep, hll]
        rw [hm]
        exact ⟨iff_of_false (by simp) (by simp),
          iff_of_true rfl (Or.inl ⟨rfl, hcr.1 rfl⟩)⟩
    · by_cases h3 : choice = "3"
      · subst h3
        simp [menuStep]
      · by_cases h4 : choice = "4"
        · subst h4
          have hcr := invest_crash_iff inp.investor_id inp.loan_id inp.today s
          rcases hiv : invest inp.investor_id inp.loan_id inp.today s with ⟨o, s'⟩
          rw [hiv] at hcr
          cases o with
          | success =>
            have hm : menuStep "4" inp s = (MenuOutcome.continueLoop, s') := by
              simp [menuStep, hiv]
            rw [hm]
            refine ⟨iff_of_false (by simp) (by simp), iff_of_false (by simp) ?_⟩
            rintro (⟨h42, -⟩ | ⟨-, hc⟩)
            · exact absurd h42 (by simp)
            · exact absurd (hcr.2 hc) (by simp)
          | unknownInvestor =>
            have hm : menuStep "4" inp s = (MenuOutcome.continueLoop, s') := by
              simp [menuStep, hiv]
            rw [hm]
            refine ⟨iff_of_false (by simp) (by simp), iff_of_false (by simp) ?_⟩
            rintro (⟨h42, -⟩ | ⟨-, hc⟩)
            · exact absurd h42 (by simp)
            · exact absurd (hcr.2 hc) (by simp)
          | loanNotOpen =>
            have hm : menuStep "4" inp s = (MenuOutcome.continueLoop, s') := by
              simp [menuStep, hiv]
            rw [hm]
            refine ⟨iff_of_false (by simp) (by simp), iff_of_false (by simp) ?_⟩
            rintro (⟨h42, -⟩ | ⟨-, hc⟩)
            · exact absurd h42 (by simp)
            · exact absurd (hcr.2 hc) (by simp)
          | crash =>
            have hm : menuStep "4" inp s = (MenuOutcome.crash, s') := by
              simp [menuStep, hiv]
            rw [hm]
            exact ⟨iff_of_false (by simp) (by simp),
              iff_of_true rfl (Or.inr ⟨rfl, hcr.1 rfl⟩)⟩
        · by_cases h5 : choice = "5"
          · subst h5
            simp [menuStep]
          · by_cases h6 : choice = "6"
            · subst h6
              simp [menuStep]
            · by_cases h7 : choice = "7"
              · subst h7
                simp [menuStep]
              · simp [menuStep, h1, h2, h3, h4, h5, h6, h7]

end P2PLending
